import Mathlib

/-!
Shallow embedding of the realtime-channel client code of the LinkU-Frontend
repository (`src/lib/websocket-manager.ts`, `src/lib/elevenlabs-realtime.ts`,
the Gemini emotion/WebSocket services and the integrated interview service),
together with theorems settling the frozen claims about it.

Conventions used throughout:
* machine numbers that the code only adds, multiplies and compares are `Nat`
  (timer delays, counters) or `ℚ` (emotion intensities/confidences);
* a JavaScript value that may be `undefined` is an `Option`;
* a method whose interesting effect is what it sends on the socket and which
  user callbacks it fires is a pure function returning the new state together
  with the list of callback invocations and the list of outbound messages;
* event-driven behaviour (socket open/close/error, `setTimeout` callbacks,
  `ended`/`error` audio handlers) is a step function on an explicit state,
  driven by an adversarial list of events.
-/

/-- Connection status enum, `WebSocketConnectionStatus` in `types/websocket`:
`'disconnected' | 'connecting' | 'connected' | 'error'`. -/
inductive ConnStatus
  | disconnected
  | connecting
  | connected
  | error
deriving DecidableEq, Repr

/-- Status field of `ConversationState` in `elevenlabs-conversational.ts`
(used by `ElevenLabsRealtimeConversation`): `'idle' | 'connecting' |
'connected' | 'speaking' | 'listening' | 'processing' | 'error'`. -/
inductive ElrcStatus
  | idle
  | connecting
  | connected
  | speaking
  | listening
  | processing
  | error
deriving DecidableEq, Repr

/-- `EmotionData` from `types/websocket`: `{emotion, intensity, confidence,
timestamp}`. -/
structure EmotionData where
  emotion : String
  intensity : ℚ
  confidence : ℚ
  timestamp : Nat
deriving DecidableEq, Repr

/-- `GeminiEmotionResponse` from `types/websocket`. -/
structure GeminiEmotionResponse where
  emotions : List EmotionData
  overall_mood : String
  stress_level : ℚ
  engagement_level : ℚ
deriving DecidableEq, Repr

/-! ## Audio buffer window (C9)

`GeminiEmotionDetector.addAudioChunk` and
`EmotionDetectionService.analyzeAudioEmotion` push a chunk and then trim the
buffer with `this.audioBuffer.slice(-maxChunks)` where
`maxChunks = Math.floor(5000 / this.config.analysisInterval)`. -/

/-- JavaScript `arr.slice(-n)` for a non-negative integer `n`: the last `n`
elements — except that for `n = 0` the argument is `-0 === 0`, so `slice(0)`
returns the whole array. -/
def jsSliceLast (n : Nat) (l : List α) : List α :=
  if n = 0 then l else l.drop (l.length - n)

/-- `GeminiEmotionDetector.addAudioChunk` (identical trimming logic in
`EmotionDetectionService.analyzeAudioEmotion`): push the chunk, compute
`maxChunks = Math.floor(5000 / analysisInterval)` and, when the buffer is
longer than `maxChunks`, keep `slice(-maxChunks)`.  `analysisInterval` is in
milliseconds and positive (the shipped defaults are 2000). -/
def addAudioChunk (analysisInterval : Nat) (audioBuffer : List α) (chunk : α) : List α :=
  let buf := audioBuffer ++ [chunk]
  let maxChunks := 5000 / analysisInterval
  if maxChunks < buf.length then jsSliceLast maxChunks buf else buf

/-! ## Emotion threshold filtering (C10) -/

/-- `GeminiEmotionDetector.handleEmotionAnalysis`: filter the samples by
`emotion.confidence >= this.config.confidenceThreshold` and invoke
`onEmotionDetected` only when the filtered list is non-empty.  The result is
`some l` when the callback is invoked with list `l`, `none` when it is not
invoked. -/
def gedHandleEmotionAnalysis (confidenceThreshold : ℚ)
    (analysis : GeminiEmotionResponse) : Option (List EmotionData) :=
  let validEmotions := analysis.emotions.filter
    (fun e => decide (confidenceThreshold ≤ e.confidence))
  if 0 < validEmotions.length then some validEmotions else none

/-- The threshold actually used by
`EmotionDetectionService.handleEmotionAnalysis`:
`this.config.geminiConfig?.confidenceThreshold || 0.7` — a missing *or zero*
configured value falls back to `0.7` (JavaScript `||` on a falsy number). -/
def edsEffectiveThreshold (configured : Option ℚ) : ℚ :=
  match configured with
  | some c => if c = 0 then 7 / 10 else c
  | none => 7 / 10

/-- `EmotionDetectionService.handleEmotionAnalysis`: same shape as the
Gemini-detector variant but with the `|| 0.7` fallback threshold. -/
def edsHandleEmotionAnalysis (configured : Option ℚ)
    (analysis : GeminiEmotionResponse) : Option (List EmotionData) :=
  let validEmotions := analysis.emotions.filter
    (fun e => decide (edsEffectiveThreshold configured ≤ e.confidence))
  if 0 < validEmotions.length then some validEmotions else none

/-! ## Empty emotion batch (C8) -/

/-- `ElevenLabsConversationService.sendEmotionUpdate`: builds the contextual
text `Estado emocional del entrevistado: ` followed by the comma-joined
per-sample summaries. -/
def sendEmotionUpdateText (emotions : List EmotionData) : String :=
  "Estado emocional del entrevistado: " ++
    String.intercalate ", " (emotions.map (fun e =>
      e.emotion ++ " (intensidad: " ++ toString e.intensity ++
        ", confianza: " ++ toString e.confidence ++ ")"))

/-- Callback slots that `IntegratedInterviewService.handleEmotionDetected`
can invoke. -/
inductive IISCallback
  | onEmotionDetected (emotions : List EmotionData)
  | onStressLevelChange (level : ℚ)
deriving DecidableEq, Repr

/-- Division that records a division by zero instead of performing it. -/
def ratDivOpt (a b : ℚ) : Option ℚ :=
  if b = 0 then none else some (a / b)

/-- The stress-family emotion names checked by
`IntegratedInterviewService.handleEmotionDetected`. -/
def iisStressNames : List String := ["stress", "nervousness", "anxiety"]

/-- `IntegratedInterviewService.handleEmotionDetected`: always forwards the
batch to `onEmotionDetected`; sends an emotion contextual update to
ElevenLabs when `enableEmotionFeedback !== false` and ElevenLabs is
connected; and, when the batch contains stress-family samples, averages
their intensities and invokes `onStressLevelChange`.  Returns `none` exactly
when a division by zero would occur; otherwise `some` of the invoked
callbacks and the contextual-update texts sent. -/
def iisHandleEmotionDetected (enableEmotionFeedback : Option Bool)
    (elevenLabsConnected : Bool) (emotions : List EmotionData) :
    Option (List IISCallback × List String) :=
  let cbs := [IISCallback.onEmotionDetected emotions]
  let sends :=
    if enableEmotionFeedback ≠ some false ∧ elevenLabsConnected = true then
      [sendEmotionUpdateText emotions]
    else []
  let stressEmotions := emotions.filter
    (fun e => iisStressNames.contains e.emotion.toLower)
  if 0 < stressEmotions.length then
    match ratDivOpt (stressEmotions.foldl (fun sum e => sum + e.intensity) 0)
        (stressEmotions.length : ℚ) with
    | none => none
    | some avgStress => some (cbs ++ [IISCallback.onStressLevelChange avgStress], sends)
  else
    some (cbs, sends)

/-! ## Reconnect delays (C3)

Each `handleClose` schedules the next `connect()` with `setTimeout`.  The
delay expression reads the *current* value of `reconnectAttempts`; the
counter is incremented only later, inside the timer callback (ElevenLabs and
Gemini-emotion variants) or was incremented when the previous attempt was
scheduled (manager variant).  Each function returns `some delay` when a
reconnect is scheduled and `none` when the close is absorbed. -/

/-- `ElevenLabsConversationService.handleClose`:
`setTimeout(..., this.reconnectDelay * this.reconnectAttempts)` guarded by
`reconnectAttempts < maxReconnectAttempts`, with `reconnectDelay = 1000` and
`maxReconnectAttempts = 3`. -/
def elcsHandleCloseDelay (reconnectAttempts : Nat) : Option Nat :=
  if reconnectAttempts < 3 then some (1000 * reconnectAttempts) else none

/-- `GeminiEmotionDetector.handleClose`: same shape with
`reconnectDelay = 2000`. -/
def gedHandleCloseDelay (reconnectAttempts : Nat) : Option Nat :=
  if reconnectAttempts < 3 then some (2000 * reconnectAttempts) else none

/-- `GeminiWebSocketService.handleClose`: reconnects only when
`event.code !== 1000`, with delay
`this.reconnectDelay * Math.pow(2, this.reconnectAttempts)` and
`reconnectDelay = 1000`. -/
def gwsHandleCloseDelay (closeCode : Nat) (reconnectAttempts : Nat) : Option Nat :=
  if closeCode ≠ 1000 ∧ reconnectAttempts < 3 then
    some (1000 * 2 ^ reconnectAttempts)
  else none

/-! ## Outbound sends (C4) -/

/-- Client-to-server events built by the ElevenLabs wrappers
(`ElevenLabsClientEvent` / `WebSocketOutgoingMessage`).  The pong carries an
`Option` event id because `ElevenLabsVoiceChat` can read an absent field. -/
inductive ClientEvent
  | conversationInit
  | pong (eventId : Option Nat)
  | userAudioChunk (audioBase64 : String)
  | contextualUpdate (text : String)
  | userMessage (text : String)
  | userActivity
deriving DecidableEq, Repr

/-- `ElevenLabsConversationService.sendMessage`: when the socket is `OPEN`
the JSON-serialized message is written to it, otherwise it warns and drops.
Result: (messages written, whether the warning was logged).  The method
touches no other field of the service. -/
def elcsSendMessage (wsOpen : Bool) (message : ClientEvent) : List ClientEvent × Bool :=
  if wsOpen then ([message], false) else ([], true)

/-- `ElevenLabsRealtimeConversation.sendMessage`: identical logic. -/
def elrcSendMessage (wsOpen : Bool) (message : ClientEvent) : List ClientEvent × Bool :=
  if wsOpen then ([message], false) else ([], true)

/-- `GeminiWebSocketMessage` from `types`: the application-level intents
accepted by `WebSocketManager` (`audio`, `text`, `control`). -/
inductive GWMessage
  | audio (audioDataB64 : String) (format : String) (sampleRate : Nat)
  | text (content : String) (role : String)
  | control (action : String) (sessionId : Option String)
deriving DecidableEq, Repr

/-- The wire envelopes `WebSocketManager.formatForGemini` produces. -/
inductive GeminiWire
  | clientContentAudio (mimeType : String) (dataB64 : String)
  | clientContentText (role : String) (content : String)
  | controlMsg (action : String) (sessionId : Option String)
deriving DecidableEq, Repr

/-- `WebSocketManager.formatForGemini`. -/
def formatForGemini : GWMessage → GeminiWire
  | GWMessage.audio d f _ => GeminiWire.clientContentAudio ("audio/" ++ f) d
  | GWMessage.text c r => GeminiWire.clientContentText r c
  | GWMessage.control a sid => GeminiWire.controlMsg a sid

/-- The part of `WebSocketManager` state that `sendMessage`/`handleOpen`
read and write. -/
structure WSMSendState where
  wsOpen : Bool
  messageQueue : List GWMessage
deriving DecidableEq, Repr

/-- `WebSocketManager.sendMessage`: when the socket is `OPEN`, format for
Gemini and write; otherwise *queue the message for when the connection is
established*. -/
def wsmSendMessage (s : WSMSendState) (message : GWMessage) : WSMSendState × List GeminiWire :=
  if s.wsOpen then (s, [formatForGemini message])
  else ({ s with messageQueue := s.messageQueue ++ [message] }, [])

/-- The queue-flushing part of `WebSocketManager.handleOpen`: the queued
messages are re-sent (now over the open socket) in FIFO order and the queue
empties. -/
def wsmHandleOpenFlush (s : WSMSendState) : WSMSendState × List GeminiWire :=
  ({ wsOpen := true, messageQueue := [] }, s.messageQueue.map formatForGemini)

/-! ## connect() idempotence (C6) -/

/-- `ElevenLabsConversationService.connect`: returns immediately when
`connectionStatus` is `'connected'` or `'connecting'`; otherwise sets
`'connecting'` and opens a new WebSocket.  Result: (new status, whether a
new socket was opened). -/
def elcsConnect (connectionStatus : ConnStatus) : ConnStatus × Bool :=
  if connectionStatus = ConnStatus.connected ∨ connectionStatus = ConnStatus.connecting then
    (connectionStatus, false)
  else (ConnStatus.connecting, true)

/-- `GeminiEmotionDetector.connect`: returns immediately when `isConnected`
or the existing socket is still `CONNECTING`; otherwise opens a new socket.
Result: whether a new socket was opened. -/
def gedConnect (isConnected : Bool) (wsConnecting : Bool) : Bool :=
  if isConnected = true ∨ wsConnecting = true then false else true

/-- `ElevenLabsRealtimeConversation.connect`: no guard at all — it always
sets the status to `'connecting'` and creates a fresh WebSocket, whatever
the current status.  Result: (new status, whether a new socket was
opened). -/
def elrcConnect (_status : ElrcStatus) : ElrcStatus × Bool :=
  (ElrcStatus.connecting, true)

/-! ## Audio playback queue (C1)

`ElevenLabsConversationService` keeps `audioQueue : HTMLAudioElement[]` and
`isPlayingAudio : boolean`.  `handleAudioReceived` pushes the decoded clip
and calls `playNextAudio()` when nothing is playing; `playNextAudio` shifts
the head, plays it, and the clip's `ended`/`error` handlers call
`playNextAudio` again.  A clip whose `audio.play()` call rejects is skipped
(the `catch` also calls `playNextAudio`).  The `ok` flag below is the oracle
for whether the browser's `play()` call succeeds for that clip. -/

/-- A queued audio clip: its arrival identity and whether `play()`
succeeds. -/
structure AudioClip where
  id : Nat
  ok : Bool
deriving DecidableEq, Repr

/-- State of the playback queue, plus two history fields that only record
(arrival order, start order) and influence nothing. -/
structure AudioQueueState where
  queue : List AudioClip
  isPlayingAudio : Bool
  active : List Nat
  started : List Nat
  arrivals : List Nat
deriving DecidableEq, Repr

/-- The recursion inside `playNextAudio`: shift clips off the queue until
one plays successfully (or the queue empties).  Returns the remaining
queue, the clip now playing (if any) and the clips shifted, in order. -/
def playNextAudio : List AudioClip → List AudioClip × Option AudioClip × List AudioClip
  | [] => ([], none, [])
  | c :: rest =>
    if c.ok then (rest, some c, [c])
    else
      let r := playNextAudio rest
      (r.1, r.2.1, c :: r.2.2)

/-- Run `playNextAudio()` on the state: precedes from an idle player (the
caller has just observed `!isPlayingAudio`, or the current clip's
`ended`/`error` handler fired). -/
def runPlayNext (s : AudioQueueState) : AudioQueueState :=
  let r := playNextAudio s.queue
  { queue := r.1
    isPlayingAudio := r.2.1.isSome
    active := match r.2.1 with | some c => [c.id] | none => []
    started := s.started ++ r.2.2.map AudioClip.id
    arrivals := s.arrivals }

/-- `ElevenLabsConversationService.handleAudioReceived`: push the clip onto
the queue and start playback only if nothing is playing. -/
def handleAudioReceived (s : AudioQueueState) (c : AudioClip) : AudioQueueState :=
  let s1 := { s with queue := s.queue ++ [c], arrivals := s.arrivals ++ [c.id] }
  if s.isPlayingAudio then s1 else runPlayNext s1

/-- The `ended`/`error` handler of the currently playing clip: it stops
being active and `playNextAudio()` runs.  A no-op when nothing is
playing. -/
def finishCurrentAudio (s : AudioQueueState) : AudioQueueState :=
  match s.active with
  | [] => s
  | _ => runPlayNext { s with active := [] }

/-- Events driving the playback queue: a new audio frame arrives, or the
current clip's `ended`/`error` handler fires. -/
inductive AudioEvent
  | recv (c : AudioClip)
  | finish
deriving DecidableEq, Repr

/-- One event-loop step of the playback queue. -/
def audioStep (s : AudioQueueState) : AudioEvent → AudioQueueState
  | AudioEvent.recv c => handleAudioReceived s c
  | AudioEvent.finish => finishCurrentAudio s

/-- Fresh service: empty queue, nothing playing. -/
def audioInit : AudioQueueState :=
  { queue := [], isPlayingAudio := false, active := [], started := [], arrivals := [] }

/-- The state after a sequence of audio events from a fresh service. -/
def audioRun (evs : List AudioEvent) : AudioQueueState :=
  evs.foldl audioStep audioInit

/-- The playback-queue invariant: at most one clip is active, the
`isPlayingAudio` flag tracks activity exactly, and the clips started so far
followed by the still-queued clips are the arrivals in order (FIFO). -/
def AudioInv (s : AudioQueueState) : Prop :=
  s.active.length ≤ 1 ∧
  (s.isPlayingAudio = true ↔ s.active ≠ []) ∧
  s.started ++ s.queue.map AudioClip.id = s.arrivals

/-! ## Inbound dispatchers (C5, C7)

`ElevenLabsConversationService.handleMessage` and
`ElevenLabsRealtimeConversation.handleIncomingMessage` switch on the
incoming frame's `type` and route to callbacks; unknown types are only
logged. -/

/-- The server frames `ElevenLabsConversationService.handleMessage`
dispatches on, plus a catch-all for a well-formed frame with an unhandled
`type` tag.  The `playOk` flag on audio frames is the oracle for the later
`audio.play()` outcome of that clip. -/
inductive ELCSFrame
  | conversationInitiationMetadata (conversationId : String)
  | userTranscript (transcript : String)
  | agentResponse (response : String)
  | audio (audioBase64 : String) (eventId : Nat) (playOk : Bool)
  | ping (eventId : Nat) (pingMs : Option Nat)
  | vadScore (score : ℚ)
  | interruption (reason : String)
  | unknown (tag : String)
deriving DecidableEq, Repr

/-- Callback slots of `ElevenLabsConversationCallbacks` that
`handleMessage` can invoke. -/
inductive ELCSCallback
  | onConversationMetadata (conversationId : String)
  | onUserTranscript (transcript : String)
  | onAgentResponse (response : String)
  | onAudioReceived (audioBase64 : String) (eventId : Nat)
  | onVADScore (score : ℚ)
  | onInterruption (reason : String)
deriving DecidableEq, Repr

/-- The state of `ElevenLabsConversationService` that `handleMessage` can
touch: the playback queue and (read-only here) whether the socket is
open. -/
structure ELCSState where
  wsOpen : Bool
  connectionStatus : ConnStatus
  audio : AudioQueueState
deriving DecidableEq, Repr

/-- `ElevenLabsConversationService.handleMessage`: one switch on the frame.
Returns the new state, the callbacks invoked and the messages sent (the
pong of `sendPong` goes through `sendMessage`, so it is only written when
the socket is open at send time). -/
def elcsHandleMessage (s : ELCSState) : ELCSFrame → ELCSState × List ELCSCallback × List ClientEvent
  | ELCSFrame.conversationInitiationMetadata cid =>
      (s, [ELCSCallback.onConversationMetadata cid], [])
  | ELCSFrame.userTranscript t => (s, [ELCSCallback.onUserTranscript t], [])
  | ELCSFrame.agentResponse r => (s, [ELCSCallback.onAgentResponse r], [])
  | ELCSFrame.audio b64 eid ok =>
      ({ s with audio := handleAudioReceived s.audio { id := eid, ok := ok } },
       [ELCSCallback.onAudioReceived b64 eid], [])
  | ELCSFrame.ping eid _ =>
      (s, [], (elcsSendMessage s.wsOpen (ClientEvent.pong (some eid))).1)
  | ELCSFrame.vadScore v => (s, [ELCSCallback.onVADScore v], [])
  | ELCSFrame.interruption r => (s, [ELCSCallback.onInterruption r], [])
  | ELCSFrame.unknown _ => (s, [], [])

/-- The frames `ElevenLabsRealtimeConversation.handleIncomingMessage`
dispatches on. -/
inductive ElrcFrame
  | conversationInitiationMetadata (conversationId : String)
  | userTranscript (transcript : String)
  | agentResponse (response : String)
  | audio (audioBase64 : String)
  | ping (eventId : Nat)
  | vadScore (score : ℚ)
  | internalTentativeAgentResponse (response : String)
  | unknown (tag : String)
deriving DecidableEq, Repr

/-- Callback slots of `ElevenLabsRealtimeConversation` that
`handleIncomingMessage` can invoke. -/
inductive ElrcCallback
  | onTranscript (transcript : String)
  | onAgentResponse (response : String)
  | onAudioReceived (audioBase64 : String)
deriving DecidableEq, Repr

/-- `ConversationState` of `ElevenLabsRealtimeConversation` (the fields
`handleIncomingMessage` touches). -/
structure ElrcConversationState where
  status : ElrcStatus
  conversationId : Option String
  currentTranscript : Option String
  lastAgentResponse : Option String
  isSpeaking : Bool
deriving DecidableEq, Repr

/-- `ElevenLabsRealtimeConversation.handleIncomingMessage`: the switch on
`message.type`.  `wsOpen` is the socket state read by `sendMessage` when
the pong is sent; `vad_score`, `internal_tentative_agent_response` and
unknown types are only logged. -/
def elrcHandleIncomingMessage (wsOpen : Bool) (s : ElrcConversationState) :
    ElrcFrame → ElrcConversationState × List ElrcCallback × List ClientEvent
  | ElrcFrame.conversationInitiationMetadata cid =>
      ({ s with status := ElrcStatus.connected, conversationId := some cid }, [], [])
  | ElrcFrame.userTranscript t =>
      ({ s with currentTranscript := some t }, [ElrcCallback.onTranscript t], [])
  | ElrcFrame.agentResponse r =>
      ({ s with lastAgentResponse := some r, status := ElrcStatus.connected },
       [ElrcCallback.onAgentResponse r], [])
  | ElrcFrame.audio b64 =>
      ({ s with isSpeaking := true }, [ElrcCallback.onAudioReceived b64], [])
  | ElrcFrame.ping eid =>
      (s, [], (elrcSendMessage wsOpen (ClientEvent.pong (some eid))).1)
  | ElrcFrame.vadScore _ => (s, [], [])
  | ElrcFrame.internalTentativeAgentResponse _ => (s, [], [])
  | ElrcFrame.unknown _ => (s, [], [])

/-- The raw fields of an ElevenLabs `ping` frame as declared by the repo's
own types (`ElevenLabsPingEvent`): the event id and optional `ping_ms` live
*inside* the `ping_event` object; the frame has no top-level `event_id`
field, so reading one yields `undefined` (`none`). -/
structure RawPingFrame where
  ping_event_event_id : Nat
  ping_event_ping_ms : Option Nat
  event_id : Option Nat
deriving DecidableEq, Repr

/-- A protocol-conformant ping frame carrying event id `eid`: the id is
nested under `ping_event` and there is no top-level `event_id`. -/
def wellFormedPing (eid : Nat) (pingMs : Option Nat) : RawPingFrame :=
  { ping_event_event_id := eid, ping_event_ping_ms := pingMs, event_id := none }

/-- The `case 'ping'` branch of `ElevenLabsVoiceChat.handleMessage`
(unnamed source file, "PASO 3.2"): when the socket is open it sends
`{type: 'pong', event_id: data.event_id}` — reading the *top-level*
`event_id` field of the frame, not `data.ping_event.event_id`. -/
def voiceChatHandlePing (wsOpen : Bool) (data : RawPingFrame) : List ClientEvent :=
  if wsOpen then [ClientEvent.pong data.event_id] else []

/-- `ElevenLabsConversationService.sendPong`, fed from
`data.ping_event.event_id` in its `case 'ping'`: after the `ping_ms` delay
the pong carries the nested event id. -/
def elcsSendPong (wsOpen : Bool) (data : RawPingFrame) : List ClientEvent :=
  (elcsSendMessage wsOpen (ClientEvent.pong (some data.ping_event_event_id))).1

/-- The `case 'ping'` branch of
`ElevenLabsRealtimeConversation.handleIncomingMessage`, fed from
`message.ping_event.event_id`. -/
def elrcSendPong (wsOpen : Bool) (data : RawPingFrame) : List ClientEvent :=
  (elrcSendMessage wsOpen (ClientEvent.pong (some data.ping_event_event_id))).1

/-! ## Reconnect systems (C2)

Two event systems, one per cited client.  Events are the socket callbacks
plus the firing of a scheduled reconnect timer; timer counts are explicit.
Both runs start from a fresh client that has just called `connect()` (one
socket opening, zero reconnect attempts).  `reconnectsSinceOpen` is a
history field counting the sockets opened by reconnect timers since the
last successful open; it influences nothing. -/

/-- Socket/timer events. -/
inductive NetEvent
  | opened
  | closed
  | errored
  | timerFire
deriving DecidableEq, Repr

/-- `ElevenLabsConversationService` reconnect state. -/
structure ELCSReconnState where
  reconnectAttempts : Nat
  status : ConnStatus
  hasSocket : Bool
  pendingTimer : Nat
  reconnectsSinceOpen : Nat
deriving DecidableEq, Repr

/-- One event step of `ElevenLabsConversationService`:
`handleOpen` resets the counter; `handleClose` sets `'disconnected'` and
schedules a timer only when `reconnectAttempts < maxReconnectAttempts` (3);
the timer callback increments the counter and calls `connect()`, which
opens a socket unless the status is already connected/connecting. -/
def elcsReconnStep (s : ELCSReconnState) : NetEvent → ELCSReconnState
  | NetEvent.opened =>
      if s.hasSocket then
        { s with status := ConnStatus.connected, reconnectAttempts := 0,
                 reconnectsSinceOpen := 0 }
      else s
  | NetEvent.errored =>
      if s.hasSocket then { s with status := ConnStatus.error } else s
  | NetEvent.closed =>
      if s.hasSocket then
        { s with hasSocket := false, status := ConnStatus.disconnected,
                 pendingTimer := s.pendingTimer + (if s.reconnectAttempts < 3 then 1 else 0) }
      else s
  | NetEvent.timerFire =>
      if 1 ≤ s.pendingTimer then
        let s1 := { s with pendingTimer := s.pendingTimer - 1,
                           reconnectAttempts := s.reconnectAttempts + 1 }
        if s1.status = ConnStatus.connected ∨ s1.status = ConnStatus.connecting then s1
        else { s1 with status := ConnStatus.connecting, hasSocket := true,
                       reconnectsSinceOpen := s1.reconnectsSinceOpen + 1 }
      else s

/-- Fresh `ElevenLabsConversationService` right after the user's
`connect()`: one socket opening, no attempts, no timer. -/
def elcsReconnInit : ELCSReconnState :=
  { reconnectAttempts := 0, status := ConnStatus.connecting, hasSocket := true,
    pendingTimer := 0, reconnectsSinceOpen := 0 }

/-- Run of the ElevenLabs reconnect system. -/
def elcsReconnRun (evs : List NetEvent) : ELCSReconnState :=
  evs.foldl elcsReconnStep elcsReconnInit

/-- `WebSocketManager` reconnect state (`wsOpen` mirrors
`ws.readyState === OPEN`, the guard of its `connect()`). -/
structure WSMReconnState where
  reconnectAttempts : Nat
  connectionStatus : ConnStatus
  hasSocket : Bool
  wsOpen : Bool
  pendingTimer : Nat
  reconnectsSinceOpen : Nat
deriving DecidableEq, Repr

/-- One event step of `WebSocketManager`: `handleOpen` resets the counter;
`handleClose` nulls the socket and, when the status was not already
`'disconnected'`, calls `attemptReconnect`, which returns when
`reconnectAttempts >= config.reconnectAttempts` (3) and otherwise
increments the counter *at scheduling time* and schedules `connect()`;
`connect()` returns when the socket is `OPEN`. -/
def wsmReconnStep (s : WSMReconnState) : NetEvent → WSMReconnState
  | NetEvent.opened =>
      if s.hasSocket then
        { s with wsOpen := true, connectionStatus := ConnStatus.connected,
                 reconnectAttempts := 0, reconnectsSinceOpen := 0 }
      else s
  | NetEvent.errored =>
      if s.hasSocket then { s with connectionStatus := ConnStatus.error } else s
  | NetEvent.closed =>
      if s.hasSocket then
        let s1 := { s with hasSocket := false, wsOpen := false }
        if s1.connectionStatus ≠ ConnStatus.disconnected then
          let s2 := { s1 with connectionStatus := ConnStatus.disconnected }
          if 3 ≤ s2.reconnectAttempts then s2
          else { s2 with reconnectAttempts := s2.reconnectAttempts + 1,
                         pendingTimer := s2.pendingTimer + 1 }
        else s1
      else s
  | NetEvent.timerFire =>
      if 1 ≤ s.pendingTimer then
        let s1 := { s with pendingTimer := s.pendingTimer - 1 }
        if s1.wsOpen then s1
        else { s1 with connectionStatus := ConnStatus.connecting, hasSocket := true,
                       reconnectsSinceOpen := s1.reconnectsSinceOpen + 1 }
      else s

/-- Fresh `WebSocketManager` right after the user's `connect()`. -/
def wsmReconnInit : WSMReconnState :=
  { reconnectAttempts := 0, connectionStatus := ConnStatus.connecting,
    hasSocket := true, wsOpen := false, pendingTimer := 0, reconnectsSinceOpen := 0 }

/-- Run of the manager reconnect system. -/
def wsmReconnRun (evs : List NetEvent) : WSMReconnState :=
  evs.foldl wsmReconnStep wsmReconnInit

/-- Reachability invariant of the ElevenLabs reconnect system. -/
def ELCSReconnInv (s : ELCSReconnState) : Prop :=
  s.reconnectAttempts ≤ 3 ∧
  s.reconnectsSinceOpen ≤ s.reconnectAttempts ∧
  s.pendingTimer ≤ 1 ∧
  (1 ≤ s.pendingTimer →
    s.hasSocket = false ∧ s.reconnectAttempts < 3 ∧
    s.status ≠ ConnStatus.connected ∧ s.status ≠ ConnStatus.connecting)

/-- Reachability invariant of the manager reconnect system. -/
def WSMReconnInv (s : WSMReconnState) : Prop :=
  s.reconnectAttempts ≤ 3 ∧
  s.reconnectsSinceOpen + s.pendingTimer ≤ s.reconnectAttempts ∧
  s.pendingTimer ≤ 1 ∧
  (1 ≤ s.pendingTimer → s.hasSocket = false) ∧
  (s.wsOpen = true → s.hasSocket = true)

/-! # Theorems -/

/-! ## General helper lemmas -/

/-- Appending the same list on the right preserves the suffix relation. -/
theorem isSuffix_append_same {α : Type} {s t : List α} (u : List α)
    (h : List.IsSuffix s t) : List.IsSuffix (s ++ u) (t ++ u) := by
  obtain ⟨p, hp⟩ := h
  exact ⟨p, by rw [← List.append_assoc, hp]⟩

/-- One `addAudioChunk` call yields a suffix of the pushed buffer. -/
theorem addAudioChunk_isSuffix {α : Type} (interval : Nat) (buf : List α) (c : α) :
    List.IsSuffix (addAudioChunk interval buf c) (buf ++ [c]) := by
  simp only [addAudioChunk, jsSliceLast]
  split
  · split
    · exact List.suffix_rfl
    · exact List.drop_suffix _ _
  · exact List.suffix_rfl

/-- One `addAudioChunk` call keeps the buffer within the window, provided
the window holds at least one chunk (`analysisInterval ≤ 5000`). -/
theorem addAudioChunk_length_le {α : Type} (interval : Nat) (buf : List α) (c : α)
    (h1 : 0 < interval) (h2 : interval ≤ 5000) :
    (addAudioChunk interval buf c).length ≤ 5000 / interval := by
  have hmax : 1 ≤ 5000 / interval := (Nat.one_le_div_iff h1).mpr h2
  simp only [addAudioChunk, jsSliceLast]
  split
  · split
    · omega
    · simp only [List.length_drop, List.length_append, List.length_cons]
      omega
  · simp only [List.length_append, List.length_cons] at *
    omega

/-- Claim C9 (corrected): the rolling-window cap only works when the window
holds at least one chunk.  With `analysisInterval = 6000` the cap is
`Math.floor(5000/6000) = 0`, and `slice(-0)` is `slice(0)`, which keeps the
whole buffer: after two `addAudioChunk` calls the buffer holds 2 chunks,
exceeding the claimed bound of 0. -/
theorem audio_buffer_window_counterexample :
    (List.foldl (addAudioChunk 6000) ([] : List Nat) [0, 1]).length = 2
    ∧ 5000 / 6000 = 0 := by decide

/-- Claim C9 (amended): for every positive `analysisInterval` of at most
5000 ms — so that the window holds at least one chunk — after any sequence
of `addAudioChunk` calls the buffer holds at most
`Math.floor(5000/analysisInterval)` chunks, and the retained chunks are a
suffix of the arrival sequence (the most recently added ones). -/
theorem audio_buffer_window_amended (interval : Nat) (chunks : List Nat)
    (h1 : 0 < interval) (h2 : interval ≤ 5000) :
    (chunks.foldl (addAudioChunk interval) []).length ≤ 5000 / interval
    ∧ List.IsSuffix (chunks.foldl (addAudioChunk interval) []) chunks := by
  induction chunks using List.reverseRecOn with
  | nil =>
    constructor
    · simp
    · exact List.suffix_rfl
  | append_singleton l a ih =>
    simp only [List.foldl_append, List.foldl_cons, List.foldl_nil]
    constructor
    · exact addAudioChunk_length_le interval _ a h1 h2
    · exact (addAudioChunk_isSuffix interval _ a).trans (isSuffix_append_same [a] ih.2)

/-- Witness for `audio_buffer_window_amended` at the shipped default
interval of 2000 ms. -/
theorem audio_buffer_window_amended_witness :
    (0 < 2000 ∧ 2000 ≤ 5000)
    ∧ ((List.foldl (addAudioChunk 2000) ([] : List Nat) [7, 8, 9]).length ≤ 5000 / 2000
       ∧ List.IsSuffix (List.foldl (addAudioChunk 2000) ([] : List Nat) [7, 8, 9]) [7, 8, 9]) :=
  ⟨by decide, audio_buffer_window_amended 2000 [7, 8, 9] (by decide) (by decide)⟩

/-- Claim C10 (confirmed): whenever either `handleEmotionAnalysis` variant
invokes `onEmotionDetected`, the delivered list is non-empty and every
delivered sample has confidence at least the configured threshold (for the
`EmotionDetectionService` variant, the `|| 0.7` fallback only raises the
effective threshold, so the configured bound still holds). -/
theorem emotion_threshold_filtering (thr : ℚ) (configured : Option ℚ)
    (analysis : GeminiEmotionResponse) (delivered : List EmotionData) :
    (gedHandleEmotionAnalysis thr analysis = some delivered →
      delivered ≠ [] ∧ ∀ e ∈ delivered, thr ≤ e.confidence)
    ∧ (edsHandleEmotionAnalysis configured analysis = some delivered →
      delivered ≠ [] ∧ ∀ e ∈ delivered, configured.getD 0 ≤ e.confidence) := by
  constructor
  · intro h
    simp only [gedHandleEmotionAnalysis] at h
    split at h
    · rw [Option.some.injEq] at h
      subst h
      refine ⟨?_, ?_⟩
      · intro hnil
        rename_i hl
        rw [hnil] at hl
        simp at hl
      · intro e he
        exact of_decide_eq_true (List.mem_filter.mp he).2
    · exact absurd h (by simp)
  · intro h
    simp only [edsHandleEmotionAnalysis] at h
    split at h
    · rw [Option.some.injEq] at h
      subst h
      refine ⟨?_, ?_⟩
      · intro hnil
        rename_i hl
        rw [hnil] at hl
        simp at hl
      · intro e he
        have heff : edsEffectiveThreshold configured ≤ e.confidence :=
          of_decide_eq_true (List.mem_filter.mp he).2
        have key : configured.getD 0 ≤ edsEffectiveThreshold configured := by
          cases configured with
          | none => norm_num [edsEffectiveThreshold]
          | some c =>
            by_cases hc : c = 0
            · simp only [edsEffectiveThreshold, hc, Option.getD_some, if_pos rfl]
              norm_num
            · simp [edsEffectiveThreshold, hc]
        exact key.trans heff
    · exact absurd h (by simp)

/-- Witness for `emotion_threshold_filtering`: a single sample of
confidence 1 against threshold 1 is delivered. -/
theorem emotion_threshold_filtering_witness :
    ([{ emotion := "stress", intensity := 1, confidence := 1, timestamp := 0 }] : List EmotionData) ≠ []
    ∧ ∀ e ∈ ([{ emotion := "stress", intensity := 1, confidence := 1, timestamp := 0 }] : List EmotionData),
        (1 : ℚ) ≤ e.confidence :=
  (emotion_threshold_filtering 1 (some 1)
      { emotions := [{ emotion := "stress", intensity := 1, confidence := 1, timestamp := 0 }],
        overall_mood := "stress", stress_level := 1, engagement_level := 1 }
      [{ emotion := "stress", intensity := 1, confidence := 1, timestamp := 0 }]).1
    (by decide)

/-- Claim C8 (confirmed): on an empty sample batch,
`IntegratedInterviewService.handleEmotionDetected` completes without error
(no division by zero is reached: the stress average is guarded by a
non-empty filter) and invokes only `onEmotionDetected` — never
`onStressLevelChange` — and `sendEmotionUpdate` builds its contextual text
without error, yielding the bare prefix for the empty list. -/
theorem empty_emotion_batch_safe (cfg : Option Bool) (conn : Bool) :
    iisHandleEmotionDetected cfg conn [] =
      some ([IISCallback.onEmotionDetected []],
        if cfg ≠ some false ∧ conn = true then [sendEmotionUpdateText []] else [])
    ∧ sendEmotionUpdateText [] = "Estado emocional del entrevistado: " :=
  ⟨rfl, by decide⟩

/-- Claim C3 (corrected): the delay before the first reconnect attempt of
`ElevenLabsConversationService` is `1000 * 0 = 0`, not `1 × 1000` — the
delay expression reads `reconnectAttempts` before the timer callback
increments it.  And `GeminiWebSocketService` is exponential: before its
third attempt (counter reads 2) the delay is `1000 * 2^2 = 4000`, not
`3 × 1000`. -/
theorem reconnect_delay_counterexample :
    elcsHandleCloseDelay 0 = some 0 ∧ (0 : Nat) ≠ 1 * 1000
    ∧ gwsHandleCloseDelay 1006 2 = some 4000 ∧ (4000 : Nat) ≠ 3 * 1000 := by decide

/-- Claim C3 (amended): for reconnect attempt `n` (1 ≤ n ≤ 3), scheduled at
a close seen with counter value `n - 1`, the delay is `(n-1) × base` for
`ElevenLabsConversationService` (base 1000 ms) and `GeminiEmotionDetector`
(base 2000 ms) — linear but shifted down by one step, starting at 0 — and
`base × 2^(n-1)` for `GeminiWebSocketService` (exponential, and only for
close codes other than 1000). -/
theorem reconnect_delay_amended (n closeCode : Nat)
    (h1 : 1 ≤ n) (h2 : n ≤ 3) (hc : closeCode ≠ 1000) :
    elcsHandleCloseDelay (n - 1) = some (1000 * (n - 1))
    ∧ gedHandleCloseDelay (n - 1) = some (2000 * (n - 1))
    ∧ gwsHandleCloseDelay closeCode (n - 1) = some (1000 * 2 ^ (n - 1)) := by
  have h3 : n - 1 < 3 := by omega
  simp [elcsHandleCloseDelay, gedHandleCloseDelay, gwsHandleCloseDelay, h3, hc]

/-- Witness for `reconnect_delay_amended` at attempt 2 and close code
1006. -/
theorem reconnect_delay_amended_witness :
    (1 ≤ 2 ∧ 2 ≤ 3 ∧ (1006 : Nat) ≠ 1000)
    ∧ (elcsHandleCloseDelay 1 = some 1000
       ∧ gedHandleCloseDelay 1 = some 2000
       ∧ gwsHandleCloseDelay 1006 1 = some 2000) := by
  refine ⟨by decide, ?_⟩
  simpa using reconnect_delay_amended 2 1006 (by decide) (by decide) (by decide)

/-- Claim C4 (corrected): `WebSocketManager.sendMessage` does *not* drop a
message sent while the socket is closed — it retains it in `messageQueue`
for delivery after the next open, so the client state changes. -/
theorem send_when_closed_counterexample :
    (wsmSendMessage { wsOpen := false, messageQueue := [] }
        (GWMessage.text "hola" "user")).1.messageQueue
      = [GWMessage.text "hola" "user"]
    ∧ (wsmSendMessage { wsOpen := false, messageQueue := [] }
        (GWMessage.text "hola" "user")).2 = [] := by decide

/-- Claim C4 (amended): the two ElevenLabs wrappers warn and drop when the
socket is not open (nothing written, nothing retained) and write the
serialized message when it is open; `WebSocketManager`, by contrast,
enqueues the message while not open (writing nothing) and flushes the queue
in arrival order on `handleOpen`; when open, it writes the
Gemini-formatted message. -/
theorem send_when_closed_amended (m : ClientEvent) (g : GWMessage) (s : WSMSendState) :
    elcsSendMessage false m = ([], true)
    ∧ elcsSendMessage true m = ([m], false)
    ∧ elrcSendMessage false m = ([], true)
    ∧ elrcSendMessage true m = ([m], false)
    ∧ (s.wsOpen = false →
        wsmSendMessage s g = ({ s with messageQueue := s.messageQueue ++ [g] }, []))
    ∧ (s.wsOpen = true → wsmSendMessage s g = (s, [formatForGemini g]))
    ∧ wsmHandleOpenFlush s
        = ({ wsOpen := true, messageQueue := [] }, s.messageQueue.map formatForGemini) := by
  refine ⟨rfl, rfl, rfl, rfl, ?_, ?_, rfl⟩
  · intro h
    simp [wsmSendMessage, h]
  · intro h
    simp [wsmSendMessage, h]

/-- Witness for `send_when_closed_amended`: a control message sent on a
closed manager socket is queued, not written. -/
theorem send_when_closed_amended_witness :
    (({ wsOpen := false, messageQueue := [] } : WSMSendState).wsOpen = false)
    ∧ wsmSendMessage { wsOpen := false, messageQueue := [] } (GWMessage.control "stop" none)
      = ({ wsOpen := false, messageQueue := [GWMessage.control "stop" none] }, []) :=
  ⟨rfl, (send_when_closed_amended ClientEvent.userActivity (GWMessage.control "stop" none)
      { wsOpen := false, messageQueue := [] }).2.2.2.2.1 rfl⟩

/-- Claim C6 (corrected): `ElevenLabsRealtimeConversation.connect` is not
idempotent — invoked while already connected it still opens a new WebSocket
and resets the status to `'connecting'`. -/
theorem connect_idempotence_counterexample :
    (elrcConnect ElrcStatus.connected).2 = true
    ∧ (elrcConnect ElrcStatus.connected).1 ≠ ElrcStatus.connected := by decide

/-- Claim C6 (amended): `connect()` is idempotent while connected or
connecting for `ElevenLabsConversationService` (status guard) and
`GeminiEmotionDetector` (`isConnected`/`CONNECTING` guard) — no second
socket, state unchanged — but `ElevenLabsRealtimeConversation.connect` has
no such guard (see the counterexample). -/
theorem connect_idempotence_amended (b : Bool) :
    elcsConnect ConnStatus.connected = (ConnStatus.connected, false)
    ∧ elcsConnect ConnStatus.connecting = (ConnStatus.connecting, false)
    ∧ gedConnect true b = false
    ∧ gedConnect b true = false := by
  cases b <;> decide

/-- Claim C7 (confirmed): a well-formed frame with an unhandled `type`
falls to the `default` arm of both dispatchers: it is only logged — no
callback fires, nothing is sent, and the whole client state (connection
status, transcripts, audio queue) is returned unchanged. -/
theorem unknown_type_dropped (s : ELCSState) (wsOpen : Bool)
    (t : ElrcConversationState) (tag : String) :
    elcsHandleMessage s (ELCSFrame.unknown tag) = (s, [], [])
    ∧ elrcHandleIncomingMessage wsOpen t (ElrcFrame.unknown tag) = (t, [], []) :=
  ⟨rfl, rfl⟩

/-- Claim C5 (code_bug): on a protocol-conformant ping frame carrying
event id 42 (nested under `ping_event`, as the repo's own
`ElevenLabsPingEvent` type declares), `ElevenLabsConversationService` and
`ElevenLabsRealtimeConversation` answer with a pong carrying event id 42,
but `ElevenLabsVoiceChat.handleMessage` reads the non-existent *top-level*
`data.event_id` and so sends a pong whose event id is `undefined`. -/
theorem voicechat_pong_event_id_bug :
    elcsSendPong true (wellFormedPing 42 (some 0)) = [ClientEvent.pong (some 42)]
    ∧ elrcSendPong true (wellFormedPing 42 (some 0)) = [ClientEvent.pong (some 42)]
    ∧ voiceChatHandlePing true (wellFormedPing 42 (some 0)) = [ClientEvent.pong none]
    ∧ ClientEvent.pong none ≠ ClientEvent.pong (some 42) := by decide

/-! ## C1: playback queue invariant -/

/-- The clips `playNextAudio` shifts, followed by the remaining queue, are
exactly the input queue. -/
theorem playNextAudio_append (q : List AudioClip) :
    (playNextAudio q).2.2 ++ (playNextAudio q).1 = q := by
  induction q with
  | nil => rfl
  | cons c rest ih =>
    by_cases h : c.ok
    · simp [playNextAudio, h]
    · simp only [playNextAudio, h, if_neg, Bool.false_eq_true, not_false_iff, List.cons_append]
      rw [ih]

/-- `runPlayNext` establishes the playback invariant whenever the FIFO
history equation holds on entry. -/
theorem audioInv_runPlayNext (s : AudioQueueState)
    (h : s.started ++ s.queue.map AudioClip.id = s.arrivals) :
    AudioInv (runPlayNext s) := by
  have hap := playNextAudio_append s.queue
  simp only [AudioInv, runPlayNext]
  cases hcur : (playNextAudio s.queue).2.1 with
  | none =>
    refine ⟨by simp, by simp, ?_⟩
    show s.started ++ List.map AudioClip.id (playNextAudio s.queue).2.2 ++
        List.map AudioClip.id (playNextAudio s.queue).1 = s.arrivals
    rw [List.append_assoc, ← List.map_append, hap, h]
  | some c =>
    refine ⟨by simp, by simp, ?_⟩
    show s.started ++ List.map AudioClip.id (playNextAudio s.queue).2.2 ++
        List.map AudioClip.id (playNextAudio s.queue).1 = s.arrivals
    rw [List.append_assoc, ← List.map_append, hap, h]

/-- Each audio event preserves the playback invariant. -/
theorem audioInv_step (s : AudioQueueState) (e : AudioEvent) (h : AudioInv s) :
    AudioInv (audioStep s e) := by
  obtain ⟨h1, h2, h3⟩ := h
  cases e with
  | recv c =>
    cases hpl : s.isPlayingAudio with
    | true =>
      have step_eq : audioStep s (AudioEvent.recv c)
          = { s with queue := s.queue ++ [c], arrivals := s.arrivals ++ [c.id] } := by
        simp [audioStep, handleAudioReceived, hpl]
      rw [step_eq]
      refine ⟨h1, by simpa using h2, ?_⟩
      simp only [List.map_append, List.map_cons, List.map_nil]
      rw [← List.append_assoc, h3]
    | false =>
      have step_eq : audioStep s (AudioEvent.recv c)
          = runPlayNext { s with queue := s.queue ++ [c], arrivals := s.arrivals ++ [c.id] } := by
        simp [audioStep, handleAudioReceived, hpl]
      rw [step_eq]
      apply audioInv_runPlayNext
      simp only [List.map_append, List.map_cons, List.map_nil]
      rw [← List.append_assoc, h3]
  | finish =>
    cases ha : s.active with
    | nil =>
      have step_eq : audioStep s AudioEvent.finish = s := by
        simp [audioStep, finishCurrentAudio, ha]
      rw [step_eq]
      exact ⟨h1, h2, h3⟩
    | cons x xs =>
      have step_eq : audioStep s AudioEvent.finish = runPlayNext { s with active := [] } := by
        simp [audioStep, finishCurrentAudio, ha]
      rw [step_eq]
      exact audioInv_runPlayNext _ (by simpa using h3)

/-- The playback invariant holds in every reachable state. -/
theorem audioInv_run (evs : List AudioEvent) : AudioInv (audioRun evs) := by
  have general : ∀ (l : List AudioEvent) (s : AudioQueueState),
      AudioInv s → AudioInv (l.foldl audioStep s) := by
    intro l
    induction l with
    | nil => intro s hs; exact hs
    | cons e rest ih =>
      intro s hs
      exact ih (audioStep s e) (audioInv_step s e hs)
  have hinit : AudioInv audioInit := by
    refine ⟨by simp [audioInit], by simp [audioInit], by simp [audioInit]⟩
  exact general evs audioInit hinit

/-- Claim C1 (confirmed): in every state reachable by received-audio and
clip-finished events, at most one clip is active at a time, `isPlayingAudio`
is true exactly while some clip is active, the clips started so far followed
by the still-queued ones equal the arrivals in order (FIFO playback), and a
step can start a new clip only when no clip was active or the step is the
previous clip's `ended`/`error` handler. -/
theorem audio_queue_sequential (evs : List AudioEvent) (e : AudioEvent) :
    (audioRun evs).active.length ≤ 1
    ∧ ((audioRun evs).isPlayingAudio = true ↔ (audioRun evs).active ≠ [])
    ∧ (audioRun evs).started ++ (audioRun evs).queue.map AudioClip.id = (audioRun evs).arrivals
    ∧ ((audioStep (audioRun evs) e).started = (audioRun evs).started
        ∨ (audioRun evs).active = [] ∨ e = AudioEvent.finish) := by
  obtain ⟨h1, h2, h3⟩ := audioInv_run evs
  refine ⟨h1, h2, h3, ?_⟩
  cases e with
  | finish => exact Or.inr (Or.inr rfl)
  | recv c =>
    cases hpl : (audioRun evs).isPlayingAudio with
    | true =>
      left
      simp [audioStep, handleAudioReceived, hpl]
    | false =>
      right; left
      by_contra hne
      have := h2.mpr hne
      rw [hpl] at this
      exact Bool.false_ne_true this

/-! ## C2: reconnect bounds -/

/-- Each event preserves the ElevenLabs reconnect invariant. -/
theorem elcsReconnInv_step (s : ELCSReconnState) (e : NetEvent) (h : ELCSReconnInv s) :
    ELCSReconnInv (elcsReconnStep s e) := by
  obtain ⟨h1, h2, h3, h4⟩ := h
  cases e with
  | opened =>
    simp only [elcsReconnStep]
    split_ifs with hs
    · refine ⟨by show (0 : Nat) ≤ 3; omega, by show (0 : Nat) ≤ 0; omega, ?_, ?_⟩
      · show s.pendingTimer ≤ 1
        exact h3
      · intro hpos
        exact absurd ((h4 hpos).1) (by simp [hs])
    · exact ⟨h1, h2, h3, h4⟩
  | errored =>
    simp only [elcsReconnStep]
    split_ifs with hs
    · refine ⟨h1, h2, h3, ?_⟩
      intro hpos
      exact absurd ((h4 hpos).1) (by simp [hs])
    · exact ⟨h1, h2, h3, h4⟩
  | closed =>
    simp only [elcsReconnStep]
    split_ifs with hs hlt
    · have hp : s.pendingTimer = 0 := by
        rcases Nat.eq_zero_or_pos s.pendingTimer with hz | hpos
        · exact hz
        · exact absurd ((h4 hpos).1) (by simp [hs])
      refine ⟨h1, h2, ?_, ?_⟩
      · show s.pendingTimer + 1 ≤ 1
        omega
      · intro _
        refine ⟨rfl, hlt, ?_, ?_⟩
        · show ConnStatus.disconnected ≠ ConnStatus.connected
          decide
        · show ConnStatus.disconnected ≠ ConnStatus.connecting
          decide
    · have hp : s.pendingTimer = 0 := by
        rcases Nat.eq_zero_or_pos s.pendingTimer with hz | hpos
        · exact hz
        · exact absurd ((h4 hpos).1) (by simp [hs])
      refine ⟨h1, h2, ?_, ?_⟩
      · show s.pendingTimer + 0 ≤ 1
        omega
      · intro hpos
        have hpos2 : 1 ≤ s.pendingTimer + 0 := hpos
        omega
    · exact ⟨h1, h2, h3, h4⟩
  | timerFire =>
    simp only [elcsReconnStep]
    split_ifs with hpending hstat
    · obtain ⟨hsock, hlt, hne1, hne2⟩ := h4 hpending
      rcases hstat with hc | hc
      · exact absurd hc hne1
      · exact absurd hc hne2
    · obtain ⟨hsock, hlt, hne1, hne2⟩ := h4 hpending
      refine ⟨?_, ?_, ?_, ?_⟩
      · show s.reconnectAttempts + 1 ≤ 3
        omega
      · show s.reconnectsSinceOpen + 1 ≤ s.reconnectAttempts + 1
        omega
      · show s.pendingTimer - 1 ≤ 1
        omega
      · intro hpos
        have hpos2 : 1 ≤ s.pendingTimer - 1 := hpos
        omega
    · exact ⟨h1, h2, h3, h4⟩

/-- The ElevenLabs reconnect invariant holds in every reachable state. -/
theorem elcsReconnInv_run (evs : List NetEvent) : ELCSReconnInv (elcsReconnRun evs) := by
  have general : ∀ (l : List NetEvent) (s : ELCSReconnState),
      ELCSReconnInv s → ELCSReconnInv (l.foldl elcsReconnStep s) := by
    intro l
    induction l with
    | nil => intro s hs; exact hs
    | cons e rest ih => intro s hs; exact ih _ (elcsReconnInv_step s e hs)
  refine general evs elcsReconnInit ⟨by decide, by decide, by decide, ?_⟩
  intro hpos
  exact absurd hpos (by decide)

/-- Each event preserves the manager reconnect invariant. -/
theorem wsmReconnInv_step (s : WSMReconnState) (e : NetEvent) (h : WSMReconnInv s) :
    WSMReconnInv (wsmReconnStep s e) := by
  obtain ⟨h1, h2, h3, h4, h5⟩ := h
  cases e with
  | opened =>
    simp only [wsmReconnStep]
    split_ifs with hs
    · have hp : s.pendingTimer = 0 := by
        rcases Nat.eq_zero_or_pos s.pendingTimer with hz | hpos
        · exact hz
        · exact absurd (h4 hpos) (by simp [hs])
      refine ⟨by show (0 : Nat) ≤ 3; omega, ?_, ?_, ?_, ?_⟩
      · show 0 + s.pendingTimer ≤ 0
        omega
      · show s.pendingTimer ≤ 1
        exact h3
      · intro hpos
        exact absurd (h4 hpos) (by simp [hs])
      · intro _
        exact hs
    · exact ⟨h1, h2, h3, h4, h5⟩
  | errored =>
    simp only [wsmReconnStep]
    split_ifs with hs
    · exact ⟨h1, h2, h3, h4, fun _ => hs⟩
    · exact ⟨h1, h2, h3, h4, h5⟩
  | closed =>
    simp only [wsmReconnStep]
    split_ifs with hs hstat hmax
    · -- status was not 'disconnected', attempts already at the cap: absorb
      refine ⟨h1, h2, h3, ?_, ?_⟩
      · intro _
        rfl
      · intro hopen
        exact absurd hopen (by simp)
    · -- status was not 'disconnected', attempts below cap: schedule
      have hp : s.pendingTimer = 0 := by
        rcases Nat.eq_zero_or_pos s.pendingTimer with hz | hpos
        · exact hz
        · exact absurd (h4 hpos) (by simp [hs])
      have hmax2 : ¬(3 ≤ s.reconnectAttempts) := hmax
      refine ⟨?_, ?_, ?_, ?_, ?_⟩
      · show s.reconnectAttempts + 1 ≤ 3
        omega
      · show s.reconnectsSinceOpen + (s.pendingTimer + 1) ≤ s.reconnectAttempts + 1
        omega
      · show s.pendingTimer + 1 ≤ 1
        omega
      · intro _
        rfl
      · intro hopen
        exact absurd hopen (by simp)
    · -- user-initiated close (status already 'disconnected'): no reconnect
      refine ⟨h1, h2, h3, ?_, ?_⟩
      · intro _
        rfl
      · intro hopen
        exact absurd hopen (by simp)
    · exact ⟨h1, h2, h3, h4, h5⟩
  | timerFire =>
    simp only [wsmReconnStep]
    split_ifs with hpending hws
    · -- socket already open: connect() returns
      have hp1 : s.pendingTimer = 1 := by omega
      have hsock := h4 hpending
      have : s.wsOpen = true := hws
      exact absurd (h5 this) (by simp [hsock])
    · refine ⟨h1, ?_, ?_, ?_, ?_⟩
      · show s.reconnectsSinceOpen + 1 + (s.pendingTimer - 1) ≤ s.reconnectAttempts
        omega
      · show s.pendingTimer - 1 ≤ 1
        omega
      · intro hpos
        have hpos2 : 1 ≤ s.pendingTimer - 1 := hpos
        exact absurd hpos2 (by omega)
      · intro _
        rfl
    · exact ⟨h1, h2, h3, h4, h5⟩

/-- The manager reconnect invariant holds in every reachable state. -/
theorem wsmReconnInv_run (evs : List NetEvent) : WSMReconnInv (wsmReconnRun evs) := by
  have general : ∀ (l : List NetEvent) (s : WSMReconnState),
      WSMReconnInv s → WSMReconnInv (l.foldl wsmReconnStep s) := by
    intro l
    induction l with
    | nil => intro s hs; exact hs
    | cons e rest ih => intro s hs; exact ih _ (wsmReconnInv_step s e hs)
  refine general evs wsmReconnInit ⟨by decide, by decide, by decide, ?_, ?_⟩
  · intro hpos
    exact absurd hpos (by decide)
  · intro hopen
    exact absurd hopen (by decide)

/-- Once the ElevenLabs counter reads 3, no event but a successful open
changes anything attempt-related: no new timer is scheduled and no
reconnect socket is opened. -/
theorem elcs_no_new_attempt_at_three (s : ELCSReconnState) (e : NetEvent)
    (h : ELCSReconnInv s) (hat : s.reconnectAttempts = 3) :
    (elcsReconnStep s e).pendingTimer ≤ s.pendingTimer
    ∧ (elcsReconnStep s e).reconnectsSinceOpen ≤ s.reconnectsSinceOpen := by
  obtain ⟨h1, h2, h3, h4⟩ := h
  cases e with
  | opened =>
    simp only [elcsReconnStep]
    split_ifs with hs
    · exact ⟨Nat.le_refl _, Nat.zero_le _⟩
    · exact ⟨Nat.le_refl _, Nat.le_refl _⟩
  | errored =>
    simp only [elcsReconnStep]
    split_ifs with hs
    · exact ⟨Nat.le_refl _, Nat.le_refl _⟩
    · exact ⟨Nat.le_refl _, Nat.le_refl _⟩
  | closed =>
    simp only [elcsReconnStep]
    split_ifs with hs hlt
    · exact absurd hlt (by omega)
    · exact ⟨by show s.pendingTimer + 0 ≤ s.pendingTimer; omega, Nat.le_refl _⟩
    · exact ⟨Nat.le_refl _, Nat.le_refl _⟩
  | timerFire =>
    simp only [elcsReconnStep]
    split_ifs with hp hstat
    · exact absurd (h4 hp).2.1 (by omega)
    · exact absurd (h4 hp).2.1 (by omega)
    · exact ⟨Nat.le_refl _, Nat.le_refl _⟩

/-- Once the manager counter reads 3, no event but a successful open
schedules a new reconnect timer (the increment-at-scheduling discipline
means the already-counted third attempt may still fire from its pending
timer, but nothing new is scheduled). -/
theorem wsm_no_new_timer_at_three (s : WSMReconnState) (e : NetEvent)
    (h : WSMReconnInv s) (hat : s.reconnectAttempts = 3) :
    (wsmReconnStep s e).pendingTimer ≤ s.pendingTimer := by
  obtain ⟨h1, h2, h3, h4, h5⟩ := h
  cases e with
  | opened =>
    simp only [wsmReconnStep]
    split_ifs with hs
    · exact Nat.le_refl _
    · exact Nat.le_refl _
  | errored =>
    simp only [wsmReconnStep]
    split_ifs with hs
    · exact Nat.le_refl _
    · exact Nat.le_refl _
  | closed =>
    simp only [wsmReconnStep]
    split_ifs with hs hstat hmax
    · exact Nat.le_refl _
    · have hmax2 : ¬(3 ≤ s.reconnectAttempts) := hmax
      exact absurd (by omega) hmax2
    · exact Nat.le_refl _
    · exact Nat.le_refl _
  | timerFire =>
    simp only [wsmReconnStep]
    split_ifs with hp hws
    · show s.pendingTimer - 1 ≤ s.pendingTimer
      omega
    · show s.pendingTimer - 1 ≤ s.pendingTimer
      omega
    · exact Nat.le_refl _

/-- Claim C2 (confirmed): starting from a fresh client, through any
sequence of open/close/error/timer events, the reconnect counter of both
cited clients never exceeds 3, at most 3 reconnect sockets are ever opened
between successful opens, and once the counter reads 3 no event short of a
successful open schedules a further reconnect (for
`ElevenLabsConversationService` additionally no further reconnect socket is
opened; `WebSocketManager` increments at scheduling time, so its
already-counted third attempt may still fire, but never a fourth). -/
theorem reconnect_stops_after_three (evs : List NetEvent) (e : NetEvent) :
    (elcsReconnRun evs).reconnectAttempts ≤ 3
    ∧ (elcsReconnRun evs).reconnectsSinceOpen ≤ 3
    ∧ (wsmReconnRun evs).reconnectAttempts ≤ 3
    ∧ (wsmReconnRun evs).reconnectsSinceOpen ≤ 3
    ∧ ((elcsReconnRun evs).reconnectAttempts ≠ 3
        ∨ ((elcsReconnStep (elcsReconnRun evs) e).pendingTimer
              ≤ (elcsReconnRun evs).pendingTimer
            ∧ (elcsReconnStep (elcsReconnRun evs) e).reconnectsSinceOpen
              ≤ (elcsReconnRun evs).reconnectsSinceOpen))
    ∧ ((wsmReconnRun evs).reconnectAttempts ≠ 3
        ∨ (wsmReconnStep (wsmReconnRun evs) e).pendingTimer
            ≤ (wsmReconnRun evs).pendingTimer) := by
  obtain ⟨e1, e2, e3, e4⟩ := elcsReconnInv_run evs
  obtain ⟨w1, w2, w3, w4, w5⟩ := wsmReconnInv_run evs
  refine ⟨e1, by omega, w1, by omega, ?_, ?_⟩
  · by_cases hat : (elcsReconnRun evs).reconnectAttempts = 3
    · exact Or.inr (elcs_no_new_attempt_at_three _ e ⟨e1, e2, e3, e4⟩ hat)
    · exact Or.inl hat
  · by_cases hat : (wsmReconnRun evs).reconnectAttempts = 3
    · exact Or.inr (wsm_no_new_timer_at_three _ e ⟨w1, w2, w3, w4, w5⟩ hat)
    · exact Or.inl hat
